import Mathlib

/-!
Verification development for the field-service management app
(src/high-corp-tech-system/high_corp_tech.py).

The claims under study concern four self-contained pieces of the
program:

* `WhatsAppParser.parse_line` and its ordered regex pattern list
  (source lines 1030-1095);
* `WhatsAppParser.extract_unit_info`, the keyword/regex tagger with
  its additive confidence score (source lines 1097-1165);
* the login-lockout logic of `DatabaseManager.log_login_attempt`,
  `reset_login_attempts`, `is_user_locked_out` and
  `SessionManager.login_user` (source lines 561-602, 929-981);
* `SecurityManager.verify_2fa_token` (source lines 181-188).

The Python regexes used by the parser only ever repeat single
character classes (there is no unbounded repetition of a composite
subexpression), so they are embedded with a small backtracking engine
whose repetition nodes carry a character class.  The engine reproduces
the CPython `re` semantics the source relies on: `re.match` anchors at
the start of the string, `re.search` scans for the leftmost match,
repetition is greedy with backtracking, `$` matches at the end of the
string or just before a final newline, and `.` matches anything except
a newline.  Strings are modelled over their character lists; the
ASCII fragment of `str.strip`, `str.lower` and `str.upper` is used
(all pattern text in the source is ASCII).
-/

/-- Python whitespace for `str.strip` and the regex class `\s`
(ASCII fragment): space, tab, newline, carriage return, vertical tab,
form feed. -/
def isPySpace (c : Char) : Bool :=
  c = ' ' || c = '\t' || c = '\n' || c = '\r' || c.toNat = 11 || c.toNat = 12

/-- Python `str.strip()` on a character list: drop leading and
trailing whitespace. -/
def pyStrip (cs : List Char) : List Char :=
  ((cs.dropWhile isPySpace).reverse.dropWhile isPySpace).reverse

/-- Python `str.lower()` (ASCII fragment). -/
def lowerL (cs : List Char) : List Char := cs.map Char.toLower

/-- Python `str.upper()` (ASCII fragment). -/
def upperL (cs : List Char) : List Char := cs.map Char.toUpper

/-- ASCII decimal digit, the regex class `\d`. -/
def isDigitC (c : Char) : Bool := '0' ≤ c && c ≤ '9'

/-- Word character for the regex assertion `\b` (ASCII fragment of
`\w`): letters, digits and underscore. -/
def isWordC (c : Char) : Bool :=
  ('a' ≤ c && c ≤ 'z') || ('A' ≤ c && c ≤ 'Z') || isDigitC c || c = '_'

/-- Regular expressions as used by the source: every unbounded or
bounded repetition in the source patterns repeats a single character
class, so repetition nodes carry a class predicate and the engine
stays structurally recursive. -/
inductive RE where
  | eps : RE
  | cls : (Char → Bool) → RE
  | seq : RE → RE → RE
  | opt : RE → RE
  | starCls : (Char → Bool) → RE
  | plusCls : (Char → Bool) → RE
  | repCls : (Char → Bool) → Nat → Nat → RE
  | group : Nat → RE → RE
  | wordB : RE
  | dollar : RE

/-- Numbered capture groups, as matched character lists. -/
abbrev Caps := List (Nat × List Char)

/-- Last character of the consumed prefix, falling back to the
character preceding the match attempt (context for `\b`). -/
def lastOpt (prev : Option Char) (consumed : List Char) : Option Char :=
  match consumed.getLast? with
  | some c => some c
  | none => prev

/-- Backtracking matcher.  `run r prev cs` returns every way `r` can
match a prefix of `cs`, in the priority order of a Python-style
backtracking engine (greedy repetition first); each alternative
reports the character preceding the remaining input, the remaining
input, and the captures recorded so far.  The head of the list is the
match Python would commit to. -/
def run : RE → Option Char → List Char → List (Option Char × List Char × Caps)
  | .eps, prev, cs => [(prev, cs, [])]
  | .cls p, _, cs =>
    match cs with
    | [] => []
    | c :: rest => if p c then [(some c, rest, [])] else []
  | .seq a b, prev, cs =>
    (run a prev cs).flatMap fun r =>
      (run b r.1 r.2.1).map fun s => (s.1, s.2.1, r.2.2 ++ s.2.2)
  | .opt a, prev, cs => run a prev cs ++ [(prev, cs, [])]
  | .starCls p, prev, cs =>
    let m := (cs.takeWhile p).length
    (List.range (m + 1)).reverse.map fun i =>
      (lastOpt prev (cs.take i), cs.drop i, [])
  | .plusCls p, prev, cs =>
    let m := (cs.takeWhile p).length
    ((List.range (m + 1)).reverse.filter fun i => 1 ≤ i).map fun i =>
      (lastOpt prev (cs.take i), cs.drop i, [])
  | .repCls p lo hi, prev, cs =>
    let m := min (cs.takeWhile p).length hi
    ((List.range (m + 1)).reverse.filter fun i => lo ≤ i).map fun i =>
      (lastOpt prev (cs.take i), cs.drop i, [])
  | .group n a, prev, cs =>
    (run a prev cs).map fun r =>
      (r.1, r.2.1, (n, cs.take (cs.length - r.2.1.length)) :: r.2.2)
  | .wordB, prev, cs =>
    let before := match prev with | some c => isWordC c | none => false
    let after := match cs with | c :: _ => isWordC c | [] => false
    if before ≠ after then [(prev, cs, [])] else []
  | .dollar, prev, cs =>
    if cs = [] || cs = ['\n'] then [(prev, cs, [])] else []

/-- Python `re.match`: anchored at the start of the string; returns
the captures of the first (highest-priority) match, if any. -/
def reMatch (r : RE) (cs : List Char) : Option Caps :=
  match run r none cs with
  | [] => none
  | (_, _, cp) :: _ => some cp

/-- Python `re.search` scanning from a given position, `prev` being
the character just before that position. -/
def reSearchFrom (r : RE) : Option Char → List Char → Option Caps
  | prev, [] =>
    match run r prev [] with
    | (_, _, cp) :: _ => some cp
    | [] => none
  | prev, c :: rest =>
    match run r prev (c :: rest) with
    | (_, _, cp) :: _ => some cp
    | [] => reSearchFrom r (some c) rest

/-- Python `re.search`: leftmost match wins; at the leftmost feasible
position the backtracking priority order decides. -/
def reSearch (r : RE) (cs : List Char) : Option Caps :=
  reSearchFrom r none cs

/-- Captured text of group `n` (empty if the group is absent; in every
pattern of the source each group participates in any match). -/
def capGet (cp : Caps) (n : Nat) : List Char :=
  match cp with
  | [] => []
  | (m, s) :: rest => if m = n then s else capGet rest n

/-- Literal character. -/
def chrRE (c : Char) : RE := RE.cls (fun d => d = c)

/-- Literal string. -/
def litsRE (s : String) : RE := s.data.foldr (fun c r => RE.seq (chrRE c) r) RE.eps

/-- Sequence of a list of regexes. -/
def seqs (l : List RE) : RE := l.foldr RE.seq RE.eps

/-- The regex class `[^:]`. -/
def notColon (c : Char) : Bool := c ≠ ':'

/-- The regex `.`: any character except a newline. -/
def dotAny (c : Char) : Bool := c ≠ '\n'

/-- The regex class `[APMapm]`. -/
def isAPM (c : Char) : Bool :=
  c = 'A' || c = 'P' || c = 'M' || c = 'a' || c = 'p' || c = 'm'

/-- The regex class `[a-z0-9\-]`. -/
def isLowAlnumDash (c : Char) : Bool :=
  ('a' ≤ c && c ≤ 'z') || isDigitC c || c = '-'

/-- The regex class `[a-z]`. -/
def isLowAlpha (c : Char) : Bool := 'a' ≤ c && c ≤ 'z'

/-!
The four chat-line patterns of `WhatsAppParser.PATTERNS`
(source lines 1030-1042), in source order.
-/

/-- Standard format, `12/31/23, 11:59 PM - Sender: Message`. -/
def standardRE : RE :=
  seqs [RE.group 1 (seqs [RE.repCls isDigitC 1 2, chrRE '/', RE.repCls isDigitC 1 2,
          chrRE '/', RE.repCls isDigitC 2 4]),
        chrRE ',', RE.cls isPySpace,
        RE.group 2 (seqs [RE.repCls isDigitC 1 2, chrRE ':', RE.repCls isDigitC 2 2,
          RE.opt (RE.cls isPySpace), RE.repCls isAPM 2 2]),
        RE.cls isPySpace, chrRE '-', RE.cls isPySpace,
        RE.group 3 (RE.plusCls notColon),
        chrRE ':', RE.cls isPySpace,
        RE.group 4 (RE.starCls dotAny),
        RE.dollar]

/-- Android export, `[12/31/23, 23:59:00] Sender: Message`. -/
def androidRE : RE :=
  seqs [chrRE '[',
        RE.group 1 (seqs [RE.repCls isDigitC 2 2, chrRE '/', RE.repCls isDigitC 2 2,
          chrRE '/', RE.repCls isDigitC 4 4, chrRE ',', RE.cls isPySpace,
          RE.repCls isDigitC 2 2, chrRE ':', RE.repCls isDigitC 2 2,
          chrRE ':', RE.repCls isDigitC 2 2]),
        chrRE ']', RE.cls isPySpace,
        RE.group 2 (RE.plusCls notColon),
        chrRE ':', RE.cls isPySpace,
        RE.group 3 (RE.starCls dotAny),
        RE.dollar]

/-- iOS export, `2023-12-31 23:59 - Sender: Message`. -/
def iosRE : RE :=
  seqs [RE.group 1 (seqs [RE.repCls isDigitC 4 4, chrRE '-', RE.repCls isDigitC 2 2,
          chrRE '-', RE.repCls isDigitC 2 2, RE.cls isPySpace,
          RE.repCls isDigitC 2 2, chrRE ':', RE.repCls isDigitC 2 2]),
        RE.cls isPySpace, chrRE '-', RE.cls isPySpace,
        RE.group 2 (RE.plusCls notColon),
        chrRE ':', RE.cls isPySpace,
        RE.group 3 (RE.starCls dotAny),
        RE.dollar]

/-- Date-first format, `31/12/2023, 23:59 - Sender: Message`. -/
def dateFirstRE : RE :=
  seqs [RE.group 1 (seqs [RE.repCls isDigitC 1 2, chrRE '/', RE.repCls isDigitC 1 2,
          chrRE '/', RE.repCls isDigitC 4 4]),
        chrRE ',', RE.cls isPySpace,
        RE.group 2 (seqs [RE.repCls isDigitC 1 2, chrRE ':', RE.repCls isDigitC 2 2]),
        RE.cls isPySpace, chrRE '-', RE.cls isPySpace,
        RE.group 3 (RE.plusCls notColon),
        chrRE ':', RE.cls isPySpace,
        RE.group 4 (RE.starCls dotAny),
        RE.dollar]

/-- Result record of `WhatsAppParser.parse_line`: the union of the
keys the Python dictionaries carry in the different branches, absent
keys being `none`. -/
structure ParsedLine where
  raw_line : String
  date : Option String := none
  time : Option String := none
  datetime : Option String := none
  sender : Option String
  message : String
  format : String
  deriving Repr, DecidableEq

/-- `WhatsAppParser.parse_line` (source lines 1044-1095): strip the
line, skip it when empty, try the four patterns in order with
first-match-wins, and fall back to a continuation record. -/
def parse_line (line : String) : Option ParsedLine :=
  let l := pyStrip line.data
  if l = [] then none
  else
    match reMatch standardRE l with
    | some cp => some
        { raw_line := ⟨l⟩
        , date := some ⟨capGet cp 1⟩
        , time := some ⟨capGet cp 2⟩
        , sender := some ⟨pyStrip (capGet cp 3)⟩
        , message := ⟨pyStrip (capGet cp 4)⟩
        , format := "standard" }
    | none =>
      match reMatch androidRE l with
      | some cp => some
          { raw_line := ⟨l⟩
          , datetime := some ⟨capGet cp 1⟩
          , sender := some ⟨pyStrip (capGet cp 2)⟩
          , message := ⟨pyStrip (capGet cp 3)⟩
          , format := "android" }
      | none =>
        match reMatch iosRE l with
        | some cp => some
            { raw_line := ⟨l⟩
            , datetime := some ⟨capGet cp 1⟩
            , sender := some ⟨pyStrip (capGet cp 2)⟩
            , message := ⟨pyStrip (capGet cp 3)⟩
            , format := "ios" }
        | none =>
          match reMatch dateFirstRE l with
          | some cp => some
              { raw_line := ⟨l⟩
              , date := some ⟨capGet cp 1⟩
              , time := some ⟨capGet cp 2⟩
              , sender := some ⟨pyStrip (capGet cp 3)⟩
              , message := ⟨pyStrip (capGet cp 4)⟩
              , format := "date_first" }
          | none => some
              { raw_line := ⟨l⟩
              , sender := none
              , message := ⟨l⟩
              , format := "continuation" }

/-!
`WhatsAppParser.extract_unit_info` (source lines 1097-1165): four
independent first-hit-wins scans over the lower-cased text, each
adding its weight to an additive confidence score.  Python float
literals `0.3` and `0.2` are embedded as the exact rationals `3/10`
and `1/5`.
-/

/-- The first (highest-precedence) unit pattern of the source,
`unit #X`. -/
def unitRE : RE :=
  seqs [litsRE "unit", RE.plusCls isPySpace, RE.opt (chrRE '#'),
    RE.starCls isPySpace, RE.group 1 (RE.plusCls isLowAlnumDash)]

/-- The ordered unit patterns of the source, with their unit types. -/
def unit_patterns : List (RE × String) :=
  [ (unitRE, "unit")
  , (seqs [litsRE "apt", RE.plusCls isPySpace, RE.opt (chrRE '#'),
      RE.starCls isPySpace, RE.group 1 (RE.plusCls isLowAlnumDash)], "apartment")
  , (seqs [litsRE "suite", RE.plusCls isPySpace, RE.opt (chrRE '#'),
      RE.starCls isPySpace, RE.group 1 (RE.plusCls isLowAlnumDash)], "suite")
  , (seqs [chrRE '#', RE.starCls isPySpace,
      RE.group 1 (RE.plusCls isLowAlnumDash)], "number")
  , (seqs [RE.wordB, RE.group 1 (seqs [RE.opt (RE.cls isLowAlpha),
      RE.plusCls isDigitC, RE.opt (RE.cls isLowAlpha)]), RE.wordB], "simple") ]

/-- Work-type keyword categories, in source order. -/
def work_patterns : List (String × List String) :=
  [ ("fiber", ["fiber", "fiber optic", "cable", "ont", "splice"])
  , ("construction", ["construction", "build", "install", "mount"])
  , ("repair", ["repair", "fix", "broken", "issue", "problem"])
  , ("test", ["test", "speed", "signal", "check", "verify"])
  , ("inspect", ["inspect", "inspection", "audit", "review"]) ]

/-- Priority keyword categories, in source order. -/
def priority_patterns : List (String × List String) :=
  [ ("high", ["urgent", "emergency", "critical", "asap", "now"])
  , ("medium", ["important", "soon", "schedule"])
  , ("low", ["when", "later", "sometime"]) ]

/-- Building-reference words of the source. -/
def building_words : List String :=
  ["building", "tower", "complex", "center", "plaza"]

/-- Does the character list start with the given prefix
(Python `str.startswith` on lists)? -/
def startsWithL : List Char → List Char → Bool
  | [], _ => true
  | _ :: _, [] => false
  | a :: as, b :: bs => a = b && startsWithL as bs

/-- Python substring containment, `needle in hay`. -/
def hasSub (needle : List Char) : List Char → Bool
  | [] => startsWithL needle []
  | c :: t => startsWithL needle (c :: t) || hasSub needle t

/-- Does some keyword of the category occur in the text
(Python `any(keyword in text_lower for keyword in keywords)`)? -/
def catHit (tl : List Char) (kws : List String) : Bool :=
  kws.any fun k => hasSub k.data tl

/-- Result record of `WhatsAppParser.extract_unit_info`. -/
structure UnitInfo where
  unit_label : Option String
  unit_type : Option String
  work_type : String
  priority : String
  confidence : ℚ
  deriving Repr, DecidableEq

/-- The `# Find unit` loop: first pattern with a `re.search` hit sets
the unit label (captured group upper-cased) and type and adds 0.3. -/
def unitLoop (tl : List Char) : List (RE × String) → UnitInfo → UnitInfo
  | [], r => r
  | (re, ty) :: rest, r =>
    match reSearch re tl with
    | some cp =>
      { r with unit_label := some ⟨upperL (capGet cp 1)⟩
             , unit_type := some ty
             , confidence := r.confidence + 3 / 10 }
    | none => unitLoop tl rest r

/-- The `# Find work type` loop: first category with a keyword in the
text sets the work type and adds 0.3. -/
def workLoop (tl : List Char) : List (String × List String) → UnitInfo → UnitInfo
  | [], r => r
  | (name, kws) :: rest, r =>
    if catHit tl kws then
      { r with work_type := name, confidence := r.confidence + 3 / 10 }
    else workLoop tl rest r

/-- The `# Find priority` loop: first category with a keyword in the
text sets the priority and adds 0.2. -/
def prioLoop (tl : List Char) : List (String × List String) → UnitInfo → UnitInfo
  | [], r => r
  | (name, kws) :: rest, r =>
    if catHit tl kws then
      { r with priority := name, confidence := r.confidence + 1 / 5 }
    else prioLoop tl rest r

/-- The `# Find building references` loop: first building word present
in the text adds 0.2. -/
def bldLoop (tl : List Char) : List String → UnitInfo → UnitInfo
  | [], r => r
  | w :: rest, r =>
    if hasSub w.data tl then { r with confidence := r.confidence + 1 / 5 }
    else bldLoop tl rest r

/-- `WhatsAppParser.extract_unit_info` (source lines 1097-1165):
lower-case the text, then run the four scans in source order over the
initial result record. -/
def extract_unit_info (text : String) : UnitInfo :=
  let tl := lowerL text.data
  let r0 : UnitInfo :=
    { unit_label := none, unit_type := none, work_type := "other"
    , priority := "medium", confidence := 0 }
  bldLoop tl building_words
    (prioLoop tl priority_patterns
      (workLoop tl work_patterns
        (unitLoop tl unit_patterns r0)))

/-!
Payroll.  The repository file under src/ contains no payroll code;
the component exists only in the specification (spec.md section 4.2),
so it is modelled from the spec here.
-/

/-- A closed time entry selected for the payroll query: its computed
hours and its approved flag. -/
structure TimeEntry where
  hours_worked : ℚ
  approved : Bool
  deriving Repr, DecidableEq

/-- Payroll result record (spec.md section 4.2, step 6 output). -/
structure PayrollResult where
  total_hours : ℚ
  regular_hours : ℚ
  overtime_hours : ℚ
  regular_pay : ℚ
  overtime_pay : ℚ
  total_pay : ℚ
  all_approved : Bool
  deriving Repr, DecidableEq

/-- Modelled from the spec: `PayrollCalculator` is absent from the
source under src/; spec.md section 4.2 gives its algorithm.  The
entries argument stands for the selected closed time entries of the
queried range (selection step 1); an empty selection yields no data
(step 2); otherwise the hours are summed over the WHOLE range and
split at the single 40-hour threshold (steps 3-5), with the approved
conjunction of step 6. -/
def calculate_payroll (entries : List TimeEntry) (hourly_rate : ℚ) :
    Option PayrollResult :=
  if entries = [] then none
  else
    let total_hours := (entries.map TimeEntry.hours_worked).sum
    let regular_hours := min total_hours 40
    let overtime_hours := max (total_hours - 40) 0
    some
      { total_hours := total_hours
      , regular_hours := regular_hours
      , overtime_hours := overtime_hours
      , regular_pay := regular_hours * hourly_rate
      , overtime_pay := overtime_hours * hourly_rate * (3 / 2)
      , total_pay := regular_hours * hourly_rate
          + overtime_hours * hourly_rate * (3 / 2)
      , all_approved := entries.all TimeEntry.approved }

/-!
Login lockout (source lines 56-64, 561-602, 929-981).  The persisted
per-user columns `failed_login_attempts` and `lockout_until` are the
state; wall-clock time is a natural number of minutes.  Only the
failure branch of `log_login_attempt` touches the user row (the
success branch just records the attempt).
-/

/-- `MAX_LOGIN_ATTEMPTS` (source line 62). -/
def MAX_LOGIN_ATTEMPTS : Nat := 5

/-- `LOGIN_LOCKOUT_MINUTES` (source line 63). -/
def LOGIN_LOCKOUT_MINUTES : Nat := 15

/-- The lockout-relevant columns of a `users` row. -/
structure UserRec where
  failed_login_attempts : Nat
  lockout_until : Option Nat
  deriving Repr, DecidableEq

/-- `DatabaseManager.log_login_attempt` (source lines 561-580),
restricted to its effect on the user row: a failed attempt increments
the counter and, when the new count reaches `MAX_LOGIN_ATTEMPTS`,
sets `lockout_until` to fifteen minutes from now (the SQL CASE keeps
the old value otherwise); a successful attempt leaves the row as is. -/
def log_login_attempt (now : Nat) (successful : Bool) (u : UserRec) : UserRec :=
  if successful then u
  else
    { failed_login_attempts := u.failed_login_attempts + 1
    , lockout_until :=
        if MAX_LOGIN_ATTEMPTS ≤ u.failed_login_attempts + 1 then
          some (now + LOGIN_LOCKOUT_MINUTES)
        else u.lockout_until }

/-- `DatabaseManager.reset_login_attempts` (source lines 582-589). -/
def reset_login_attempts (_ : UserRec) : UserRec :=
  { failed_login_attempts := 0, lockout_until := none }

/-- `DatabaseManager.is_user_locked_out` (source lines 591-602): an
unknown user is not locked out; otherwise locked exactly when a
lockout deadline is set and now is strictly before it. -/
def is_user_locked_out (now : Nat) (u : Option UserRec) : Bool :=
  match u with
  | none => false
  | some ur =>
    match ur.lockout_until with
    | some t => decide (now < t)
    | none => false

/-- `SessionManager.login_user` (source lines 929-981), restricted to
its decision logic and its effect on the user row: the bcrypt check
is abstracted as the boolean `pw_ok`.  Lockout is consulted first,
then the password; every outcome is a (success, message) pair. -/
def login_user (now : Nat) (pw_ok : Bool) (u : UserRec) :
    (Bool × String) × UserRec :=
  if is_user_locked_out now (some u) then
    ((false, "Account is temporarily locked. Please try again later."), u)
  else if !pw_ok then
    ((false, "Invalid email or password"), log_login_attempt now false u)
  else
    ((true, "Login successful"), reset_login_attempts u)

/-- `SecurityManager.verify_2fa_token` (source lines 181-188): the
library flag `TOTP_AVAILABLE` (source lines 36-41) and the external
`pyotp.TOTP(secret).verify(token)` call are parameters; when the flag
is false the function answers true without consulting the token. -/
def verify_2fa_token (totpAvailable : Bool)
    (totpVerify : String → String → Bool) (secret token : String) : Bool :=
  if !totpAvailable then true
  else totpVerify secret token

/-!
Helper lemmas about the four scan loops.
-/

theorem unitLoop_priority_eq (tl : List Char) (pats : List (RE × String))
    (r : UnitInfo) : (unitLoop tl pats r).priority = r.priority := by
  induction pats generalizing r with
  | nil => rfl
  | cons p rest ih =>
    obtain ⟨re, ty⟩ := p
    simp only [unitLoop]
    cases reSearch re tl <;> simp [ih]

theorem unitLoop_work_eq (tl : List Char) (pats : List (RE × String))
    (r : UnitInfo) : (unitLoop tl pats r).work_type = r.work_type := by
  induction pats generalizing r with
  | nil => rfl
  | cons p rest ih =>
    obtain ⟨re, ty⟩ := p
    simp only [unitLoop]
    cases reSearch re tl <;> simp [ih]

theorem workLoop_priority_eq (tl : List Char) (pats : List (String × List String))
    (r : UnitInfo) : (workLoop tl pats r).priority = r.priority := by
  induction pats generalizing r with
  | nil => rfl
  | cons p rest ih =>
    obtain ⟨name, kws⟩ := p
    simp only [workLoop]
    by_cases h : catHit tl kws <;> simp [h, ih]

theorem workLoop_unit_eq (tl : List Char) (pats : List (String × List String))
    (r : UnitInfo) : (workLoop tl pats r).unit_label = r.unit_label
      ∧ (workLoop tl pats r).unit_type = r.unit_type := by
  induction pats generalizing r with
  | nil => exact ⟨rfl, rfl⟩
  | cons p rest ih =>
    obtain ⟨name, kws⟩ := p
    simp only [workLoop]
    by_cases h : catHit tl kws <;> simp [h, ih]

theorem prioLoop_unit_eq (tl : List Char) (pats : List (String × List String))
    (r : UnitInfo) : (prioLoop tl pats r).unit_label = r.unit_label
      ∧ (prioLoop tl pats r).unit_type = r.unit_type := by
  induction pats generalizing r with
  | nil => exact ⟨rfl, rfl⟩
  | cons p rest ih =>
    obtain ⟨name, kws⟩ := p
    simp only [prioLoop]
    by_cases h : catHit tl kws <;> simp [h, ih]

theorem bldLoop_unit_eq (tl : List Char) (ws : List String)
    (r : UnitInfo) : (bldLoop tl ws r).unit_label = r.unit_label
      ∧ (bldLoop tl ws r).unit_type = r.unit_type := by
  induction ws generalizing r with
  | nil => exact ⟨rfl, rfl⟩
  | cons w rest ih =>
    simp only [bldLoop]
    by_cases h : hasSub w.data tl <;> simp [h, ih]

theorem bldLoop_priority_eq (tl : List Char) (ws : List String)
    (r : UnitInfo) : (bldLoop tl ws r).priority = r.priority := by
  induction ws generalizing r with
  | nil => rfl
  | cons w rest ih =>
    simp only [bldLoop]
    by_cases h : hasSub w.data tl <;> simp [h, ih]

theorem unitLoop_confidence_eq (tl : List Char) (pats : List (RE × String))
    (r : UnitInfo) : (unitLoop tl pats r).confidence =
      r.confidence + (if pats.any fun pr => (reSearch pr.1 tl).isSome
        then (3 : ℚ) / 10 else 0) := by
  induction pats generalizing r with
  | nil => simp [unitLoop]
  | cons p rest ih =>
    obtain ⟨re, ty⟩ := p
    simp only [unitLoop, List.any_cons]
    by_cases h : reSearch re tl = none
    · simp only [h, Option.isSome_none, Bool.false_or]
      exact ih r
    · obtain ⟨cp, hcp⟩ := Option.ne_none_iff_exists'.mp h
      simp only [hcp, Option.isSome_some, Bool.true_or, if_true]

theorem workLoop_confidence_eq (tl : List Char)
    (pats : List (String × List String)) (r : UnitInfo) :
    (workLoop tl pats r).confidence =
      r.confidence + (if pats.any fun pr => catHit tl pr.2
        then (3 : ℚ) / 10 else 0) := by
  induction pats generalizing r with
  | nil => simp [workLoop]
  | cons p rest ih =>
    obtain ⟨name, kws⟩ := p
    simp only [workLoop, List.any_cons]
    by_cases h : catHit tl kws
    · simp [h]
    · rw [Bool.not_eq_true] at h
      simp only [h, Bool.false_or, Bool.false_eq_true, if_false]
      exact ih r

theorem prioLoop_confidence_eq (tl : List Char)
    (pats : List (String × List String)) (r : UnitInfo) :
    (prioLoop tl pats r).confidence =
      r.confidence + (if pats.any fun pr => catHit tl pr.2
        then (1 : ℚ) / 5 else 0) := by
  induction pats generalizing r with
  | nil => simp [prioLoop]
  | cons p rest ih =>
    obtain ⟨name, kws⟩ := p
    simp only [prioLoop, List.any_cons]
    by_cases h : catHit tl kws
    · simp [h]
    · rw [Bool.not_eq_true] at h
      simp only [h, Bool.false_or, Bool.false_eq_true, if_false]
      exact ih r

theorem bldLoop_confidence_eq (tl : List Char) (ws : List String)
    (r : UnitInfo) : (bldLoop tl ws r).confidence =
      r.confidence + (if ws.any fun w => hasSub w.data tl
        then (1 : ℚ) / 5 else 0) := by
  induction ws generalizing r with
  | nil => simp [bldLoop]
  | cons w rest ih =>
    simp only [bldLoop]
    by_cases h : hasSub w.data tl <;> simp [h, ih]

/-- Does some unit pattern hit the lower-cased text? -/
def unitMatched (text : String) : Bool :=
  unit_patterns.any fun pr => (reSearch pr.1 (lowerL text.data)).isSome

/-- Does some work-type keyword occur in the lower-cased text? -/
def workMatched (text : String) : Bool :=
  work_patterns.any fun pr => catHit (lowerL text.data) pr.2

/-- Does some priority keyword occur in the lower-cased text? -/
def prioMatched (text : String) : Bool :=
  priority_patterns.any fun pr => catHit (lowerL text.data) pr.2

/-- Does some building-reference word occur in the lower-cased text? -/
def bldMatched (text : String) : Bool :=
  building_words.any fun w => hasSub w.data (lowerL text.data)

/-- Spec-side additive confidence (spec.md section 4.1 step 4): 0.3
for a unit match, 0.3 for a work-type match, 0.2 for a priority
match, 0.2 for a building word, each at most once. -/
def specConfidence (text : String) : ℚ :=
  (if unitMatched text then 3 / 10 else 0)
  + (if workMatched text then 3 / 10 else 0)
  + (if prioMatched text then 1 / 5 else 0)
  + (if bldMatched text then 1 / 5 else 0)

/-- The confidence computed by the four imperative scans equals the
spec-side additive closed form. -/
theorem extract_confidence_eq (text : String) :
    (extract_unit_info text).confidence = specConfidence text := by
  unfold extract_unit_info specConfidence
  rw [bldLoop_confidence_eq, prioLoop_confidence_eq, workLoop_confidence_eq,
    unitLoop_confidence_eq]
  unfold unitMatched workMatched prioMatched bldMatched
  ring

/-- Each summand of the closed form is non-negative and bounded by
its weight, so the total never exceeds one. -/
theorem specConfidence_le_one (text : String) : specConfidence text ≤ 1 := by
  unfold specConfidence
  have h1 : (if unitMatched text then (3 : ℚ) / 10 else 0) ≤ 3 / 10 := by
    split <;> norm_num
  have h2 : (if workMatched text then (3 : ℚ) / 10 else 0) ≤ 3 / 10 := by
    split <;> norm_num
  have h3 : (if prioMatched text then (1 : ℚ) / 5 else 0) ≤ 1 / 5 := by
    split <;> norm_num
  have h4 : (if bldMatched text then (1 : ℚ) / 5 else 0) ≤ 1 / 5 := by
    split <;> norm_num
  linarith

/-!
Claim theorems.
-/

/-- C1: for every line that is non-empty after trimming and whose
trimmed form matches the standard pattern, `parse_line` returns the
standard record: sender and message are the stripped captured groups
(hence non-null) and the format tag is "standard"; because the
pattern list is tried in order with first-match-wins, no later
pattern and no continuation fallback applies to such a line. -/
theorem parse_line_standard_first (line : String) (cp : Caps)
    (hne : pyStrip line.data ≠ [])
    (hm : reMatch standardRE (pyStrip line.data) = some cp) :
    parse_line line = some
      { raw_line := ⟨pyStrip line.data⟩
      , date := some ⟨capGet cp 1⟩
      , time := some ⟨capGet cp 2⟩
      , sender := some ⟨pyStrip (capGet cp 3)⟩
      , message := ⟨pyStrip (capGet cp 4)⟩
      , format := "standard" } := by
  unfold parse_line
  rw [if_neg hne, hm]

/-- Witness for C1 at the sample line
`12/31/23, 11:59 PM - John: Hello`. -/
theorem parse_line_standard_first_witness :
    parse_line "12/31/23, 11:59 PM - John: Hello" = some
      { raw_line := "12/31/23, 11:59 PM - John: Hello"
      , date := some "12/31/23"
      , time := some "11:59 PM"
      , sender := some "John"
      , message := "Hello"
      , format := "standard" } :=
  parse_line_standard_first "12/31/23, 11:59 PM - John: Hello"
    [(1, "12/31/23".data), (2, "11:59 PM".data), (3, "John".data),
     (4, "Hello".data)]
    (by decide) (by decide)

/-- C2: for every line that is non-empty after trimming and matches
none of the four known patterns, `parse_line` returns the
continuation record: sender is null and message equals the trimmed
input line.  The function is total, so no exception is possible. -/
theorem parse_line_continuation_fallback (line : String)
    (hne : pyStrip line.data ≠ [])
    (h1 : reMatch standardRE (pyStrip line.data) = none)
    (h2 : reMatch androidRE (pyStrip line.data) = none)
    (h3 : reMatch iosRE (pyStrip line.data) = none)
    (h4 : reMatch dateFirstRE (pyStrip line.data) = none) :
    parse_line line = some
      { raw_line := ⟨pyStrip line.data⟩
      , sender := none
      , message := ⟨pyStrip line.data⟩
      , format := "continuation" } := by
  unfold parse_line
  rw [if_neg hne, h1, h2, h3, h4]

/-- Witness for C2 at the line `hello world`. -/
theorem parse_line_continuation_fallback_witness :
    parse_line "hello world" = some
      { raw_line := "hello world"
      , sender := none
      , message := "hello world"
      , format := "continuation" } :=
  parse_line_continuation_fallback "hello world"
    (by decide) (by decide) (by decide) (by decide) (by decide)

/-- C7: an input that is empty or whitespace-only after trimming is
skipped (`parse_line` answers `none`); any other input produces some
record.  `parse_line` is a total Lean function, the embedding of a
Python function with no raising operation, so it never raises. -/
theorem parse_line_blank_skip (s : String) :
    (pyStrip s.data = [] → parse_line s = none)
    ∧ (pyStrip s.data ≠ [] → (parse_line s).isSome = true) := by
  constructor
  · intro h
    unfold parse_line
    rw [if_pos h]
  · intro h
    unfold parse_line
    rw [if_neg h]
    cases reMatch standardRE (pyStrip s.data) with
    | some cp => rfl
    | none =>
      cases reMatch androidRE (pyStrip s.data) with
      | some cp => rfl
      | none =>
        cases reMatch iosRE (pyStrip s.data) with
        | some cp => rfl
        | none =>
          cases reMatch dateFirstRE (pyStrip s.data) with
          | some cp => rfl
          | none => rfl

/-- Witness for C7: the whitespace-only input is skipped without an
error, and a garbage input still yields a record. -/
theorem parse_line_blank_skip_witness :
    parse_line "   " = none ∧ (parse_line "@@@").isSome = true :=
  ⟨(parse_line_blank_skip "   ").1 (by decide),
   (parse_line_blank_skip "@@@").2 (by decide)⟩

/-- C3: unit-label extraction is first-hit-wins over the ordered
pattern list.  Whenever the `unit #` pattern has a `re.search` hit in
the lower-cased text, `extract_unit_info` reports that hit: the
captured group upper-cased as the label, with unit type "unit" — no
matter what later patterns (such as the bare `3A`-style token) would
also match, since they are never consulted. -/
theorem extract_unit_info_precedence (text : String) (cp : Caps)
    (h : reSearch unitRE (lowerL text.data) = some cp) :
    (extract_unit_info text).unit_label = some ⟨upperL (capGet cp 1)⟩
    ∧ (extract_unit_info text).unit_type = some "unit" := by
  unfold extract_unit_info
  rw [(bldLoop_unit_eq _ _ _).1, (bldLoop_unit_eq _ _ _).2,
    (prioLoop_unit_eq _ _ _).1, (prioLoop_unit_eq _ _ _).2,
    (workLoop_unit_eq _ _ _).1, (workLoop_unit_eq _ _ _).2]
  unfold unit_patterns unitLoop
  rw [h]
  exact ⟨rfl, rfl⟩

/-- Witness for C3 at a text containing both `Unit #12` and a bare
`3A` token: the `unit #` pattern wins. -/
theorem extract_unit_info_precedence_witness :
    (extract_unit_info "Unit #12 and 3A").unit_label = some ⟨upperL (capGet [(1, "12".data)] 1)⟩
    ∧ (extract_unit_info "Unit #12 and 3A").unit_type = some "unit" :=
  extract_unit_info_precedence "Unit #12 and 3A" [(1, "12".data)] (by decide)

/-- C4: the confidence equals the additive closed form 0.3·[unit
matched] + 0.3·[work-type matched] + 0.2·[priority matched] +
0.2·[building word], each contribution at most once, and is
monotonically non-decreasing in which categories are matched: a text
whose matched categories include those of another scores at least as
much, so no category can lower the score. -/
theorem extract_confidence_additive (t1 t2 : String)
    (hu : unitMatched t1 = true → unitMatched t2 = true)
    (hw : workMatched t1 = true → workMatched t2 = true)
    (hp : prioMatched t1 = true → prioMatched t2 = true)
    (hb : bldMatched t1 = true → bldMatched t2 = true) :
    (extract_unit_info t1).confidence = specConfidence t1
    ∧ (extract_unit_info t1).confidence ≤ (extract_unit_info t2).confidence := by
  have mono : ∀ (a b : Bool) (w : ℚ), 0 ≤ w → (a = true → b = true) →
      (if a then w else 0) ≤ (if b then w else 0) := by
    intro a b w hw0 hab
    cases a with
    | false => cases b <;> simp [hw0]
    | true => rw [hab rfl]
  refine ⟨extract_confidence_eq t1, ?_⟩
  rw [extract_confidence_eq t1, extract_confidence_eq t2]
  unfold specConfidence
  have m1 := mono _ _ ((3 : ℚ) / 10) (by norm_num) hu
  have m2 := mono _ _ ((3 : ℚ) / 10) (by norm_num) hw
  have m3 := mono _ _ ((1 : ℚ) / 5) (by norm_num) hp
  have m4 := mono _ _ ((1 : ℚ) / 5) (by norm_num) hb
  exact add_le_add (add_le_add (add_le_add m1 m2) m3) m4

/-- Witness for C4: a text matching nothing against a text matching
all four categories. -/
theorem extract_confidence_additive_witness :
    (extract_unit_info "zzz qqq").confidence = specConfidence "zzz qqq"
    ∧ (extract_unit_info "zzz qqq").confidence ≤
        (extract_unit_info "unit 5 repair urgent building").confidence :=
  extract_confidence_additive "zzz qqq" "unit 5 repair urgent building"
    (by decide) (by decide) (by decide) (by decide)

/-- C5 counterexample: in exact rational arithmetic no input text
makes the confidence exceed 1.0 — the four contributions are each
added at most once and sum to at most 1, so the claimed input with
confidence above 1.0 cannot exist. -/
theorem extract_confidence_never_above_one :
    ¬ ∃ text : String, 1 < (extract_unit_info text).confidence := by
  rintro ⟨t, ht⟩
  have h := extract_confidence_eq t
  have hb := specConfidence_le_one t
  rw [h] at ht
  linarith

/-- C5 amended: the additive score has no clamping step, but its
maximum attainable value in exact rational arithmetic is exactly 1.0:
every text scores at most 1, and a text matching all four categories
scores exactly 1. -/
theorem extract_confidence_reaches_one :
    (∀ text : String, (extract_unit_info text).confidence ≤ 1)
    ∧ (extract_unit_info "unit 5 repair urgent building").confidence = 1 := by
  constructor
  · intro t
    rw [extract_confidence_eq t]
    exact specConfidence_le_one t
  · rw [extract_confidence_eq]
    unfold specConfidence
    rw [show unitMatched "unit 5 repair urgent building" = true from by decide,
      show workMatched "unit 5 repair urgent building" = true from by decide,
      show prioMatched "unit 5 repair urgent building" = true from by decide,
      show bldMatched "unit 5 repair urgent building" = true from by decide]
    norm_num

/-- C6: the priority scan checks high, then medium, then low keyword
categories on the lower-cased text and returns the first category
with a hit; a text containing no priority keyword keeps the default
"medium". -/
theorem extract_priority_order (text : String) :
    (extract_unit_info text).priority =
      (if catHit (lowerL text.data) ["urgent", "emergency", "critical", "asap", "now"]
        then "high"
      else if catHit (lowerL text.data) ["important", "soon", "schedule"]
        then "medium"
      else if catHit (lowerL text.data) ["when", "later", "sometime"]
        then "low"
      else "medium") := by
  unfold extract_unit_info
  rw [bldLoop_priority_eq]
  unfold priority_patterns prioLoop
  by_cases h1 : catHit (lowerL text.data) ["urgent", "emergency", "critical", "asap", "now"]
  · simp [h1]
  · rw [Bool.not_eq_true] at h1
    simp only [h1, Bool.false_eq_true, if_false]
    by_cases h2 : catHit (lowerL text.data) ["important", "soon", "schedule"]
    · simp [prioLoop, h2]
    · rw [Bool.not_eq_true] at h2
      simp only [prioLoop, h2, Bool.false_eq_true, if_false]
      by_cases h3 : catHit (lowerL text.data) ["when", "later", "sometime"]
      · simp [prioLoop, h3]
      · rw [Bool.not_eq_true] at h3
        simp only [h3, Bool.false_eq_true, if_false]
        rw [workLoop_priority_eq, unitLoop_priority_eq]

/-- C8: for a non-empty selection of closed time entries, the payroll
result exists and satisfies the overtime split — no overtime and
regular pay `total × rate` when the range total is at most 40 hours,
and overtime `total − 40` with total pay `40·rate + (total−40)·rate·1.5`
when it exceeds 40.  The threshold applies once to the whole queried
range: the hours are summed over all selected entries with no
per-week split. -/
theorem payroll_overtime_split (entries : List TimeEntry) (rate : ℚ)
    (hne : entries ≠ []) :
    ∃ r, calculate_payroll entries rate = some r
      ∧ r.total_hours = (entries.map TimeEntry.hours_worked).sum
      ∧ (r.total_hours ≤ 40 →
          r.overtime_hours = 0 ∧ r.regular_pay = r.total_hours * rate)
      ∧ (40 < r.total_hours →
          r.overtime_hours = r.total_hours - 40
          ∧ r.total_pay = 40 * rate + (r.total_hours - 40) * rate * (3 / 2)) := by
  unfold calculate_payroll
  rw [if_neg hne]
  refine ⟨_, rfl, rfl, fun hle => ?_, fun hlt => ?_⟩
  · constructor
    · simp only []
      rw [max_eq_right (sub_nonpos.mpr hle)]
    · simp only []
      rw [min_eq_left hle]
  · constructor
    · simp only []
      rw [max_eq_left (sub_nonneg.mpr hlt.le)]
    · simp only []
      rw [min_eq_right hlt.le, max_eq_left (sub_nonneg.mpr hlt.le)]

/-- Witness for C8 at a single 50-hour entry and rate 10: the result
exists with 10 overtime hours and total pay 550. -/
theorem payroll_overtime_split_witness :
    ∃ r, calculate_payroll [⟨50, true⟩] 10 = some r
      ∧ r.total_hours = ([⟨50, true⟩].map TimeEntry.hours_worked).sum
      ∧ (r.total_hours ≤ 40 →
          r.overtime_hours = 0 ∧ r.regular_pay = r.total_hours * 10)
      ∧ (40 < r.total_hours →
          r.overtime_hours = r.total_hours - 40
          ∧ r.total_pay = 40 * 10 + (r.total_hours - 40) * 10 * (3 / 2)) :=
  payroll_overtime_split [⟨50, true⟩] 10 (by simp)

/-- C9: account lockout is a timed cool-down.  A fifth recorded
failure sets the lockout deadline fifteen minutes ahead;
`is_user_locked_out` answers true strictly before the deadline and
false from the deadline on; `reset_login_attempts` clears the
lockout; and `login_user` reports lockout, and bad credentials after
the cool-down, as (false, message) pairs instead of raising. -/
theorem lockout_timed_cooldown (now t1 t2 : Nat) (u : UserRec)
    (hfail : MAX_LOGIN_ATTEMPTS ≤ u.failed_login_attempts + 1)
    (ht1 : t1 < now + LOGIN_LOCKOUT_MINUTES)
    (ht2 : now + LOGIN_LOCKOUT_MINUTES ≤ t2) :
    (log_login_attempt now false u).lockout_until
        = some (now + LOGIN_LOCKOUT_MINUTES)
    ∧ is_user_locked_out t1 (some (log_login_attempt now false u)) = true
    ∧ is_user_locked_out t2 (some (log_login_attempt now false u)) = false
    ∧ is_user_locked_out t1
        (some (reset_login_attempts (log_login_attempt now false u))) = false
    ∧ (login_user t1 true (log_login_attempt now false u)).1
        = (false, "Account is temporarily locked. Please try again later.")
    ∧ (login_user t2 false (log_login_attempt now false u)).1
        = (false, "Invalid email or password") := by
  have hset : (log_login_attempt now false u).lockout_until
      = some (now + LOGIN_LOCKOUT_MINUTES) := by
    unfold log_login_attempt
    simp [hfail]
  have hlock1 : is_user_locked_out t1 (some (log_login_attempt now false u)) = true := by
    simp only [is_user_locked_out]
    rw [hset]
    simpa using ht1
  have hlock2 : is_user_locked_out t2 (some (log_login_attempt now false u)) = false := by
    simp only [is_user_locked_out]
    rw [hset]
    simpa using not_lt.mpr ht2
  refine ⟨hset, hlock1, hlock2, rfl, ?_, ?_⟩
  · unfold login_user
    rw [hlock1]
    rfl
  · unfold login_user
    rw [hlock2]
    rfl

/-- Witness for C9: a user at four prior failed attempts fails a
fifth time at minute 100; the account is locked at minute 110,
unlocked at minute 115, unlocked after a reset, and both refusal
messages are produced without an exception. -/
theorem lockout_timed_cooldown_witness :
    (log_login_attempt 100 false ⟨4, none⟩).lockout_until = some (100 + LOGIN_LOCKOUT_MINUTES)
    ∧ is_user_locked_out 110 (some (log_login_attempt 100 false ⟨4, none⟩)) = true
    ∧ is_user_locked_out 115 (some (log_login_attempt 100 false ⟨4, none⟩)) = false
    ∧ is_user_locked_out 110
        (some (reset_login_attempts (log_login_attempt 100 false ⟨4, none⟩))) = false
    ∧ (login_user 110 true (log_login_attempt 100 false ⟨4, none⟩)).1
        = (false, "Account is temporarily locked. Please try again later.")
    ∧ (login_user 115 false (log_login_attempt 100 false ⟨4, none⟩)).1
        = (false, "Invalid email or password") :=
  lockout_timed_cooldown 100 110 115 ⟨4, none⟩ (by decide) (by decide) (by decide)

/-- C10: when the TOTP library is unavailable, `verify_2fa_token`
answers true for every secret and every token, whatever the external
verifier would have said — two-factor verification accepts any input
instead of failing closed. -/
theorem verify_2fa_token_accepts_all (totpVerify : String → String → Bool)
    (secret token : String) :
    verify_2fa_token false totpVerify secret token = true := rfl
